import Mathlib

/-!
Verification development for the elevenlabs-scribe-transcriber pipeline.

The definitions below are a shallow embedding of the TypeScript sources:
word/result records (src/types.ts), speaker grouping and audio segmentation
(src/utils.ts), sentence extraction (src/result-processor.ts), and the
orchestration in src/transcriber.ts.  JavaScript numbers are modelled as
rationals, optional fields as `Option`, and JavaScript falsiness defaults
(the `x or d` idiom written with two vertical bars) as explicit tests
against the falsy values of each type.
-/

namespace Scribe

/-- Model of the JavaScript union `string | number` used for speaker labels:
`word.speaker_id` is a number, the missing-speaker sentinel is a string.
Strict equality of JavaScript never identifies a number with a string, which
`DecidableEq` on this sum-like type reflects. -/
inductive SpeakerTag where
  | num : Int → SpeakerTag
  | str : String → SpeakerTag
deriving DecidableEq

/-- Word record, from `TranscriptionWord` in src/types.ts. -/
structure TranscriptionWord where
  text : String
  start : ℚ
  «end» : ℚ
  confidence : ℚ
  speaker_id : Option Int
  type : String
deriving DecidableEq

/-- Result record, from `TranscriptionResult` in src/types.ts. -/
structure TranscriptionResult where
  text : String
  words : List TranscriptionWord
  language : String
  language_probability : ℚ
deriving DecidableEq

/-- Utterance record, from `SpeakerUtterance` in src/types.ts. -/
structure SpeakerUtterance where
  speaker : SpeakerTag
  text : String
  start : ℚ
deriving DecidableEq

/-- Sentence record, from the `Sentence` interface in src/result-processor.ts. -/
structure Sentence where
  text : String
  start : ℚ
deriving DecidableEq

/-- The JavaScript expression `word.speaker_id ?? "unknown_speaker"` from
`groupBySpeaker` (src/utils.ts): nullish coalescing to the sentinel string. -/
def speakerKey (word : TranscriptionWord) : SpeakerTag :=
  match word.speaker_id with
  | some n => SpeakerTag.num n
  | none => SpeakerTag.str "unknown_speaker"

/-- The loop of `groupBySpeaker` (src/utils.ts).  The three mutable loop
variables `currentSpeaker`, `currentText`, `currentStart` are threaded as
arguments; pushes onto `conversation` become list conses, in order.  The
final clause mirrors the closing `if (currentText && currentSpeaker !== null)`
flush, where an empty string is falsy. -/
def groupBySpeakerGo :
    List TranscriptionWord → Option SpeakerTag → String → ℚ → List SpeakerUtterance
  | [], currentSpeaker, currentText, currentStart =>
    match currentSpeaker with
    | none => []
    | some s =>
      if currentText = "" then []
      else [{ speaker := s, text := currentText, start := currentStart }]
  | word :: words, currentSpeaker, currentText, currentStart =>
    let speakerId := speakerKey word
    match currentSpeaker with
    | none => groupBySpeakerGo words (some speakerId) word.text word.start
    | some cs =>
      if cs = speakerId then
        groupBySpeakerGo words (some cs) (currentText ++ word.text) currentStart
      else
        { speaker := cs, text := currentText, start := currentStart } ::
          groupBySpeakerGo words (some speakerId) word.text word.start

/-- `groupBySpeaker` from src/utils.ts: initial state is no current speaker,
empty accumulated text, start time 0. -/
def groupBySpeaker (words : List TranscriptionWord) : List SpeakerUtterance :=
  groupBySpeakerGo words none "" 0

/-- Concatenation, in order, of the `text` fields of a word list. -/
def wordsText (words : List TranscriptionWord) : String :=
  (words.map (·.text)).foldr (· ++ ·) ""

/-- Concatenation, in order, of the `text` fields of an utterance list. -/
def utterancesText (utterances : List SpeakerUtterance) : String :=
  (utterances.map (·.text)).foldr (· ++ ·) ""

/-- Concrete word with empty text, speaker 1. -/
def emptyTextWord : TranscriptionWord :=
  { text := "", start := 0, «end» := 0, confidence := 1,
    speaker_id := some 1, type := "word" }

/-- Concrete word with text Hello, speaker 1, start 0. -/
def helloWord : TranscriptionWord :=
  { text := "Hello", start := 0, «end» := 1, confidence := 1,
    speaker_id := some 1, type := "word" }

/-- Concrete word with text starting with a blank then world, speaker 1. -/
def worldWord : TranscriptionWord :=
  { text := " world", start := 1, «end» := 2, confidence := 1,
    speaker_id := some 1, type := "word" }

/-- Character class removed by the JavaScript built-in trim: whitespace. -/
def isTrimmedSpace : Char → Bool := fun c => c.isWhitespace

/-- Leading and trailing whitespace removal on the character list. -/
def trimChars (l : List Char) : List Char :=
  List.rdropWhile isTrimmedSpace (List.dropWhile isTrimmedSpace l)

/-- Model of the JavaScript built-in `String.prototype.trim` used by
`extractSentences` (src/result-processor.ts): removes leading and trailing
whitespace. -/
def jsTrim (s : String) : String := String.mk (trimChars s.data)

/-- The regex test of `isSentenceEndMarker` (src/result-processor.ts): the
pattern, anchored on both sides around a single character class, holds exactly
of the six one-character strings. -/
def isSentenceEndMarker (text : String) : Bool :=
  text == "。" || text == "！" || text == "？" ||
    text == "." || text == "!" || text == "?"

/-- The sentence-closing push of `extractSentences` (both the marker branch
and the end-of-stream flush share this guard): the trimmed accumulation is
emitted unless it trims to empty or no start was recorded. -/
def flushSentence (currentSentence : String) (currentStart : Option ℚ) :
    List Sentence :=
  match currentStart with
  | none => []
  | some st =>
    if jsTrim currentSentence = "" then []
    else [{ text := jsTrim currentSentence, start := st }]

/-- The loop of `extractSentences` (src/result-processor.ts): record the start
when the accumulation is empty, append the word text, and close the sentence
on a sentence-end marker. -/
def extractSentencesGo : List TranscriptionWord → String → Option ℚ → List Sentence
  | [], currentSentence, currentStart => flushSentence currentSentence currentStart
  | word :: words, currentSentence, currentStart =>
    if isSentenceEndMarker word.text then
      flushSentence (currentSentence ++ word.text)
        (if currentSentence = "" then some word.start else currentStart) ++
        extractSentencesGo words "" none
    else
      extractSentencesGo words (currentSentence ++ word.text)
        (if currentSentence = "" then some word.start else currentStart)

/-- `extractSentences` from src/result-processor.ts. -/
def extractSentences (words : List TranscriptionWord) : List Sentence :=
  extractSentencesGo words "" none

/-- The four-word example of the specification: Hello, blank world, a lone
period, Bye; no speaker labels. -/
def sentenceExampleWords : List TranscriptionWord :=
  [{ text := "Hello", start := 0, «end» := 1, confidence := 1,
     speaker_id := none, type := "word" },
   { text := " world", start := 1, «end» := 2, confidence := 1,
     speaker_id := none, type := "word" },
   { text := ".", start := 2, «end» := 3, confidence := 1,
     speaker_id := none, type := "word" },
   { text := "Bye", start := 3, «end» := 4, confidence := 1,
     speaker_id := none, type := "word" }]

/-- One iteration of the merge loop of `mergeTranscriptions`
(src/transcriber.ts): the text separator is inserted only when the
accumulated text is truthy, i.e. non-empty, and word lists are concatenated.
The source guard that `transcription.words` is an array is always true in the
typed model. -/
def mergeStep (merged transcription : TranscriptionResult) : TranscriptionResult :=
  { merged with
      text := merged.text ++
        (if merged.text = "" then "" else " ") ++ transcription.text
      words := merged.words ++ transcription.words }

/-- `mergeTranscriptions` from src/transcriber.ts: null on an empty input, the
sole element unchanged on a singleton, otherwise a fold of `mergeStep` over
all results starting from an empty accumulator that copies the language
fields of the first result. -/
def mergeTranscriptions : List TranscriptionResult → Option TranscriptionResult
  | [] => none
  | [t] => some t
  | t0 :: t1 :: rest =>
    some (List.foldl mergeStep
      { text := "", language := t0.language,
        language_probability := t0.language_probability, words := [] }
      (t0 :: t1 :: rest))

/-- Joined with a separator, the plain reading of the specification: the
pieces in order with the separator between consecutive pieces. -/
def intercalateSpec (sep : String) : List String → String
  | [] => ""
  | [x] => x
  | x :: y :: rest => x ++ sep ++ intercalateSpec sep (y :: rest)

/-- Blank-separator tail: each piece prefixed by one blank, concatenated. -/
def sepTail (pieces : List String) : String :=
  (pieces.map (fun t => " " ++ t)).foldr (· ++ ·) ""

/-- The text accumulation step of the merge loop, at string level: a blank
separator is inserted before the next piece only when the accumulated text is
truthy, i.e. non-empty. -/
def sepStep (acc piece : String) : String :=
  acc ++ (if acc = "" then "" else " ") ++ piece

/-- The text join exactly as the merge loop computes it over the chunk texts:
folding `sepStep` from the empty string, so pieces arriving while the
accumulated text is still empty get no separator. -/
def sepJoin (pieces : List String) : String := pieces.foldl sepStep ""

/-- Chunk result with text b and no words, for the first-text-empty merge
counterexample. -/
def bChunk : TranscriptionResult :=
  { text := "b", words := [], language := "auto", language_probability := 0 }

/-- Concrete chunk results for the merge witness. -/
def chunkA : TranscriptionResult :=
  { text := "Hello.", words := [helloWord], language := "auto",
    language_probability := 1 }

/-- Second concrete chunk result for the merge witness. -/
def chunkB : TranscriptionResult :=
  { text := "Bye.", words := [worldWord], language := "auto",
    language_probability := 1 }

/-- Output formats, from the `OutputFormat` union in src/types.ts. -/
inductive OutputFormat where
  | text
  | json
deriving DecidableEq

/-- Options record, from `TranscriptionOptions` in src/types.ts: every field
is optional; `none` stands for an absent (undefined or null) field. -/
structure TranscriptionOptions where
  tagAudioEvents : Option Bool := none
  outputFormat : Option OutputFormat := none
  outputFile : Option String := none
  outputDir : Option String := none
  numSpeakers : Option Int := none
  diarize : Option Bool := none
  showTimestamp : Option Bool := none

/-- The speech-to-text request built by `transcribeSegment`
(src/transcriber.ts:65-74).  Destructuring defaults: tagAudioEvents true,
numSpeakers 2, diarize true.  The service contract makes `num_speakers`
optional (absent lets the recognizer auto-detect), so the field is an
`Option`; the code always supplies a value, namely `numSpeakers` when
diarizing and 1 otherwise. -/
structure ConvertRequest where
  model_id : String
  num_speakers : Option Int
  diarize : Bool
  tag_audio_events : Bool
deriving DecidableEq

/-- Request construction of `transcribeSegment` (src/transcriber.ts:65-74). -/
def buildConvertRequest (options : TranscriptionOptions) : ConvertRequest :=
  let tagAudioEvents := options.tagAudioEvents.getD true
  let numSpeakers := options.numSpeakers.getD 2
  let diarize := options.diarize.getD true
  { model_id := "scribe_v1"
    num_speakers := some (if diarize then numSpeakers else 1)
    diarize := diarize
    tag_audio_events := tagAudioEvents }

/-- Raw per-word payload of the recognizer response as consumed at
src/transcriber.ts:77-84: every field may be absent. -/
structure RawWord where
  text : Option String := none
  start : Option ℚ := none
  «end» : Option ℚ := none
  confidence : Option ℚ := none
  speaker_id : Option Int := none
  type : Option String := none

/-- JavaScript `x or-else d` on an optional number: absent and 0 are falsy. -/
def jsOrNum (x : Option ℚ) (d : ℚ) : ℚ :=
  match x with
  | none => d
  | some v => if v = 0 then d else v

/-- JavaScript `x or-else d` on an optional string: absent and empty are
falsy. -/
def jsOrStr (x : Option String) (d : String) : String :=
  match x with
  | none => d
  | some v => if v = "" then d else v

/-- Per-word normalization of `transcribeSegment` (src/transcriber.ts:77-84):
every default is applied through the falsiness operator, and `speaker_id` is
passed through unchanged. -/
def normalizeWord (word : RawWord) : TranscriptionWord :=
  { text := jsOrStr word.text ""
    start := jsOrNum word.start 0
    «end» := jsOrNum word.«end» 0
    confidence := jsOrNum word.confidence 1
    speaker_id := word.speaker_id
    type := jsOrStr word.type "word" }

/-- Zero-padding of the segment index, from
`segmentIndex.toString().padStart(3, "0")` in `splitAudio` (src/utils.ts). -/
def padIndex (i : Nat) : String :=
  String.mk (List.replicate (3 - (toString i).length) '0') ++ toString i

/-- One extraction job produced by `splitAudio` (src/utils.ts): the ffmpeg
invocation receives a start time and a requested duration in seconds, and an
output path. -/
structure AudioSegment where
  index : Nat
  startTimeSec : ℚ
  requestedDurationSec : ℚ
  path : String
deriving DecidableEq

/-- `splitAudio` from src/utils.ts.  The ffprobe-provided total duration (in
milliseconds, as converted at the call site) and the timestamp embedded in
file names are parameters; `Math.ceil` is the integer ceiling.  Chunk `i`
starts at `i * segmentLength` milliseconds and requests the full segment
length; the actual write is clamped by ffmpeg, see `effectiveDurationMs`. -/
def splitAudio (totalDurationMs segmentLength : ℚ) (timestamp : String) :
    List AudioSegment :=
  let numSegments := (⌈totalDurationMs / segmentLength⌉).toNat
  (List.range numSegments).map (fun i =>
    { index := i
      startTimeSec := ((i : ℚ) * segmentLength) / 1000
      requestedDurationSec := segmentLength / 1000
      path := "temp_audio_segments/segment_" ++ padIndex i ++ "_" ++
        timestamp ++ ".mp3" })

/-- Duration actually written for a segment: ffmpeg truncates the requested
duration at the end of the input, as the source comment above `setDuration`
in `splitAudio` records. -/
def effectiveDurationMs (totalDurationMs : ℚ) (seg : AudioSegment) : ℚ :=
  min (seg.requestedDurationSec * 1000)
    (totalDurationMs - seg.startTimeSec * 1000)

/-- Model of Node `path.basename`: the last path-separator component. -/
def basename (p : String) : String := (p.splitOn "/").getLastD p

/-- `createTranscriptionHeader` from src/utils.ts; the current date string is
a parameter of the model. -/
def createTranscriptionHeader (filePath : String)
    (diarize tagAudioEvents : Bool) (now : String) : String :=
  "# 文字起こし結果\n# 元ファイル: " ++ basename filePath ++
    "\n# 日時: " ++ now ++
    "\n# 設定: 話者分離=" ++ (if diarize then "true" else "false") ++
    ", 音声イベント=" ++ (if tagAudioEvents then "true" else "false") ++
    "\n\n===== 話者ごとの時系列会話 =====\n\n"

/-- Speaker label as rendered by the output template string. -/
def speakerLabel : SpeakerTag → String
  | SpeakerTag.num n => toString n
  | SpeakerTag.str s => s

/-- The global replace in the non-diarized text branch of
`processTranscriptionResult` (src/transcriber.ts): a newline is inserted
after each of the three full-width sentence terminals. -/
def insertNewlineAfterTerminals (s : String) : String :=
  String.mk ((s.data.map (fun c =>
    if c = '。' ∨ c = '！' ∨ c = '？' then [c, '\n'] else [c])).flatten)

/-- Rendering of one word entry of the JSON output object
(src/transcriber.ts): `speaker_id` is included only when diarization is on
and the word carries one.  The exact `JSON.stringify` format is an external
builtin; this concrete rendering stands in for it. -/
def renderJsonWord (diarize : Bool) (w : TranscriptionWord) : String :=
  "\x7b\"text\":\"" ++ w.text ++ "\",\"start\":" ++ toString w.start ++
    ",\"end\":" ++ toString w.«end» ++ ",\"type\":\"" ++ w.type ++ "\"" ++
    (match w.speaker_id with
     | some sid => if diarize then ",\"speaker_id\":" ++ toString sid else ""
     | none => "") ++ "\x7d"

/-- Rendering of the JSON output object of `processTranscriptionResult`
(src/transcriber.ts). -/
def renderJsonResult (t : TranscriptionResult) (diarize : Bool) : String :=
  "\x7b\"text\":\"" ++ t.text ++ "\",\"language_probability\":" ++
    toString t.language_probability ++ ",\"words\":[" ++
    intercalateSpec "," (t.words.map (renderJsonWord diarize)) ++ "]\x7d"

/-- Filesystem events of one run, in program order: the initial full write of
the header, each append of rendered content, and each unlink of a temporary
segment file. -/
inductive FsEvent where
  | write (path content : String)
  | append (path content : String)
  | unlink (path : String)
deriving DecidableEq

/-- `processTranscriptionResult` from src/transcriber.ts: renders the result
in the selected format and appends to the output file, one append per
utterance line when diarizing, one append for the whole body otherwise.  The
console echo is not modelled. -/
def processTranscriptionResult (transcription : TranscriptionResult)
    (outputFile : String) (outputFormat : OutputFormat) (diarize : Bool) :
    List FsEvent :=
  match outputFormat with
  | OutputFormat.json =>
    [FsEvent.append outputFile (renderJsonResult transcription diarize)]
  | OutputFormat.text =>
    if diarize then
      (groupBySpeaker transcription.words).map (fun u =>
        FsEvent.append outputFile
          ("[" ++ speakerLabel u.speaker ++ "] " ++ u.text ++ "\n"))
    else
      [FsEvent.append outputFile
        (insertNewlineAfterTerminals transcription.text ++ "\n")]

/-- Environment of one `transcribeWithScribe` run: the credential as read
from the process environment, the name `generateOutputFilename` would
produce, the current date string, the outcome of `splitAudio` (segment paths,
or the thrown error message), and the successful recognition outcome per
audio path (a recognition failure propagates as a thrown error and aborts
the run; the claims settled here concern runs that reach completion or stop
at the credential check). -/
structure ScribeEnv where
  apiKey : Option String
  generatedOutputFile : String
  now : String
  splitResult : Except String (List String)
  recognize : String → TranscriptionResult

/-- `transcribeWithScribe` from src/transcriber.ts, as exit code plus ordered
filesystem events.  The credential check precedes every write; a falsy
(absent or empty) key returns 1 immediately.  With at most one segment, or
when segmentation throws, the original file is transcribed directly; with
several segments each is transcribed, the results are merged, the merged
result is written, and then every temporary segment file is unlinked. -/
def transcribeWithScribe (env : ScribeEnv) (audioFilePath : String)
    (options : TranscriptionOptions) : Nat × List FsEvent :=
  let tagAudioEvents := options.tagAudioEvents.getD true
  let outputFormat := options.outputFormat.getD OutputFormat.text
  let diarize := options.diarize.getD true
  match env.apiKey with
  | none => (1, [])
  | some apiKey =>
    if apiKey = "" then (1, [])
    else
      let finalOutputFile := jsOrStr options.outputFile env.generatedOutputFile
      let headerEvent := FsEvent.write finalOutputFile
        (createTranscriptionHeader audioFilePath diarize tagAudioEvents env.now)
      match env.splitResult with
      | Except.error _ =>
        (0, headerEvent :: processTranscriptionResult
          (env.recognize audioFilePath) finalOutputFile outputFormat diarize)
      | Except.ok segmentPaths =>
        if segmentPaths.length ≤ 1 then
          (0, headerEvent :: processTranscriptionResult
            (env.recognize audioFilePath) finalOutputFile outputFormat diarize)
        else
          match mergeTranscriptions (segmentPaths.map env.recognize) with
          | some merged =>
            (0, headerEvent :: (processTranscriptionResult merged
              finalOutputFile outputFormat diarize ++
              segmentPaths.map FsEvent.unlink))
          | none => (1, [headerEvent])

/-- Run environment with the credential absent. -/
def envMissingKey : ScribeEnv :=
  { apiKey := none, generatedOutputFile := "transcripts/transcript_x.txt",
    now := "2026-01-01 00:00:00", splitResult := Except.ok [],
    recognize := fun _ => chunkA }

/-- Chunk result with no words and empty text. -/
def emptyChunk : TranscriptionResult :=
  { text := "", words := [], language := "auto", language_probability := 0 }

/-- Run environment with two segment paths and a trivial recognizer. -/
def envTwoSegments : ScribeEnv :=
  { apiKey := some "key", generatedOutputFile := "transcripts/out.txt",
    now := "2026-01-01 00:00:00",
    splitResult := Except.ok ["temp_audio_segments/segment_000.mp3",
      "temp_audio_segments/segment_001.mp3"],
    recognize := fun _ => emptyChunk }

theorem wordsText_cons (w : TranscriptionWord) (ws : List TranscriptionWord) :
    wordsText (w :: ws) = w.text ++ wordsText ws := rfl

theorem utterancesText_cons (u : SpeakerUtterance) (us : List SpeakerUtterance) :
    utterancesText (u :: us) = u.text ++ utterancesText us := rfl

/-- Text preservation, generalized over the loop state of `groupBySpeakerGo`
with an active accumulation: the emitted text is the accumulated text followed
by the text of the remaining words. -/
theorem groupBySpeakerGo_text (ws : List TranscriptionWord) :
    ∀ (s : SpeakerTag) (ct : String) (st : ℚ),
      utterancesText (groupBySpeakerGo ws (some s) ct st) = ct ++ wordsText ws := by
  induction ws with
  | nil =>
    intro s ct st
    by_cases h : ct = ""
    · simp [groupBySpeakerGo, h, utterancesText, wordsText]
    · simp only [groupBySpeakerGo, if_neg h]
      simp [utterancesText, wordsText, String.append_empty]
  | cons w ws ih =>
    intro s ct st
    by_cases h : s = speakerKey w
    · simp only [groupBySpeakerGo, if_pos h]
      rw [ih s (ct ++ w.text) st, wordsText_cons, String.append_assoc]
    · simp only [groupBySpeakerGo, if_neg h]
      rw [utterancesText_cons, ih (speakerKey w) w.text w.start, wordsText_cons]

/-- C1: for every finite sequence of Words, the concatenation in order of the
text fields of the Utterances produced by `groupBySpeaker` equals the
concatenation in order of the text fields of the input Words: no text is lost
or duplicated. -/
theorem groupBySpeaker_text_preserved (words : List TranscriptionWord) :
    utterancesText (groupBySpeaker words) = wordsText words := by
  cases words with
  | nil => rfl
  | cons w ws =>
    show utterancesText (groupBySpeakerGo ws (some (speakerKey w)) w.text w.start) =
      wordsText (w :: ws)
    rw [groupBySpeakerGo_text ws (speakerKey w) w.text w.start, wordsText_cons]

/-- Shape of the grouping loop when every remaining word carries the speaker
key of the active accumulation: everything folds into at most one utterance,
and the closing flush drops it when the accumulated text is empty. -/
theorem groupBySpeakerGo_const (ws : List TranscriptionWord) :
    ∀ (s : SpeakerTag) (ct : String) (st : ℚ), (∀ x ∈ ws, speakerKey x = s) →
      groupBySpeakerGo ws (some s) ct st =
        if ct ++ wordsText ws = "" then []
        else [{ speaker := s, text := ct ++ wordsText ws, start := st }] := by
  induction ws with
  | nil =>
    intro s ct st _
    show (if ct = "" then _ else _) = _
    rw [show wordsText [] = "" from rfl, String.append_empty]
  | cons w ws ih =>
    intro s ct st hall
    have hw : speakerKey w = s := hall w (List.mem_cons_self w ws)
    show (if s = speakerKey w then groupBySpeakerGo ws (some s) (ct ++ w.text) st
      else _) = _
    rw [if_pos hw.symm, ih s (ct ++ w.text) st
      (fun x hx => hall x (List.mem_cons_of_mem w hx)), wordsText_cons,
      String.append_assoc]

/-- C5 counterexample: a one-word sequence trivially has no speaker
discontinuity, yet when that word carries empty text the closing flush of
`groupBySpeaker` drops the accumulation (`currentText` is falsy), so zero
utterances are produced instead of the one the claim demands. -/
theorem groupBySpeaker_empty_text_counterexample :
    groupBySpeaker [emptyTextWord] = [] := by decide

/-- C5 amended: every word sequence with no speaker discontinuities (all words
share one speaker key, the unknown-speaker sentinel included) whose
concatenated text is non-empty yields exactly one Utterance, carrying that
speaker, the full concatenated text, and the start of the first word. -/
theorem groupBySpeaker_single_speaker_one_utterance
    (w : TranscriptionWord) (ws : List TranscriptionWord) (k : SpeakerTag)
    (hall : ∀ x ∈ w :: ws, speakerKey x = k)
    (htext : wordsText (w :: ws) ≠ "") :
    groupBySpeaker (w :: ws) =
      [{ speaker := k, text := wordsText (w :: ws), start := w.start }] := by
  have hw : speakerKey w = k := hall w (List.mem_cons_self w ws)
  show groupBySpeakerGo ws (some (speakerKey w)) w.text w.start = _
  rw [hw, groupBySpeakerGo_const ws k w.text w.start
    (fun x hx => hall x (List.mem_cons_of_mem w hx)), ← wordsText_cons,
    if_neg htext]

/-- C5 amended witness: two words by speaker 1 with non-empty text collapse to
the single utterance the amended claim describes. -/
theorem groupBySpeaker_single_speaker_one_utterance_witness :
    groupBySpeaker [helloWord, worldWord] =
      [{ speaker := SpeakerTag.num 1, text := "Hello world", start := 0 }] :=
  (groupBySpeaker_single_speaker_one_utterance helloWord [worldWord]
    (SpeakerTag.num 1) (by decide) (by decide)).trans (by decide)

theorem dropWhile_trimChars (l : List Char) :
    List.dropWhile isTrimmedSpace (trimChars l) = trimChars l := by
  unfold trimChars
  obtain ⟨t, ht⟩ :=
    List.rdropWhile_prefix isTrimmedSpace (List.dropWhile isTrimmedSpace l)
  cases hr : List.rdropWhile isTrimmedSpace (List.dropWhile isTrimmedSpace l) with
  | nil => rfl
  | cons a r =>
    rw [hr] at ht
    have hmm : List.dropWhile isTrimmedSpace (List.dropWhile isTrimmedSpace l) =
        List.dropWhile isTrimmedSpace l := List.dropWhile_idempotent _ _
    rw [← ht, List.cons_append, List.dropWhile_cons] at hmm
    have hpa : ¬ isTrimmedSpace a = true := by
      intro hpa
      rw [if_pos hpa] at hmm
      have hle := (List.dropWhile_sublist (l := r ++ t) isTrimmedSpace).length_le
      rw [hmm] at hle
      simp [List.length_cons, List.length_append] at hle
    rw [List.dropWhile_cons, if_neg hpa]

theorem trimChars_idempotent (l : List Char) : trimChars (trimChars l) = trimChars l := by
  show List.rdropWhile isTrimmedSpace
    (List.dropWhile isTrimmedSpace (trimChars l)) = trimChars l
  rw [dropWhile_trimChars]
  unfold trimChars
  exact List.rdropWhile_idempotent _ _

theorem jsTrim_idempotent (s : String) : jsTrim (jsTrim s) = jsTrim s :=
  congrArg String.mk (trimChars_idempotent s.data)

theorem flushSentence_no_empty (cur : String) (st : Option ℚ) :
    ∀ s ∈ flushSentence cur st, jsTrim s.text ≠ "" := by
  intro s hs
  cases st with
  | none => cases hs
  | some v =>
    by_cases h : jsTrim cur = ""
    · have he : flushSentence cur (some v) = [] := by simp [flushSentence, h]
      rw [he] at hs
      cases hs
    · have he : flushSentence cur (some v) =
          [{ text := jsTrim cur, start := v }] := by simp [flushSentence, h]
      rw [he] at hs
      rw [List.mem_singleton.mp hs]
      show jsTrim (jsTrim cur) ≠ ""
      rw [jsTrim_idempotent]
      exact h

theorem extractSentencesGo_no_empty (ws : List TranscriptionWord) :
    ∀ (cur : String) (st : Option ℚ),
      ∀ s ∈ extractSentencesGo ws cur st, jsTrim s.text ≠ "" := by
  induction ws with
  | nil => exact fun cur st => flushSentence_no_empty cur st
  | cons w ws ih =>
    intro cur st s hs
    by_cases h : isSentenceEndMarker w.text = true
    · rw [show extractSentencesGo (w :: ws) cur st =
          flushSentence (cur ++ w.text)
            (if cur = "" then some w.start else st) ++
            extractSentencesGo ws "" none by
          simp [extractSentencesGo, h]] at hs
      rcases List.mem_append.mp hs with hs | hs
      · exact flushSentence_no_empty _ _ s hs
      · exact ih "" none s hs
    · rw [show extractSentencesGo (w :: ws) cur st =
          extractSentencesGo ws (cur ++ w.text)
            (if cur = "" then some w.start else st) by
          simp [extractSentencesGo, h]] at hs
      exact ih _ _ s hs

/-- C6: every Sentence emitted by `extractSentences` has non-empty text after
trimming; an empty post-trim Sentence is never emitted. -/
theorem extractSentences_no_empty_sentence (words : List TranscriptionWord)
    (s : Sentence) (hs : s ∈ extractSentences words) : jsTrim s.text ≠ "" :=
  extractSentencesGo_no_empty words "" none s hs

/-- C6 witness: the sentence Bye produced from the example word list is
non-empty after trimming. -/
theorem extractSentences_no_empty_sentence_witness :
    jsTrim (Sentence.text { text := "Bye", start := 3 }) ≠ "" :=
  extractSentences_no_empty_sentence sentenceExampleWords
    { text := "Bye", start := 3 } (by decide)

/-- C7: a sentence is closed and emitted exactly on a word whose entire text
is one of the six sentence-terminal characters, the emitted start being the
start of the first accumulated word: on the example list the two sentences
are Hello world. starting at 0 and Bye starting at 3; and the marker test
holds precisely of the six one-character terminal strings. -/
theorem extractSentences_example :
    extractSentences sentenceExampleWords =
      [{ text := "Hello world.", start := 0 }, { text := "Bye", start := 3 }]
    ∧ (∀ t : String, isSentenceEndMarker t = true ↔
        (t = "。" ∨ t = "！" ∨ t = "？" ∨ t = "." ∨ t = "!" ∨ t = "?")) := by
  refine ⟨by decide, fun t => ?_⟩
  simp [isSentenceEndMarker, Bool.or_eq_true, beq_iff_eq, or_assoc]

theorem append_ne_empty_left (a b : String) (h : a ≠ "") : a ++ b ≠ "" := by
  intro hc
  apply h
  have hd := congrArg String.data hc
  rw [String.data_append] at hd
  exact String.ext (List.append_eq_nil.mp hd).1

theorem intercalateSpec_eq_sepTail (xs : List String) :
    ∀ x, intercalateSpec " " (x :: xs) = x ++ sepTail xs := by
  induction xs with
  | nil => intro x; exact (String.append_empty x).symm
  | cons y ys ih =>
    intro x
    show x ++ " " ++ intercalateSpec " " (y :: ys) = x ++ sepTail (y :: ys)
    rw [ih y]
    show x ++ " " ++ (y ++ sepTail ys) = x ++ (" " ++ y ++ sepTail ys)
    rw [String.append_assoc, String.append_assoc]

theorem foldl_mergeStep_words (l : List TranscriptionResult) :
    ∀ acc, (List.foldl mergeStep acc l).words =
      acc.words ++ (l.map (·.words)).flatten := by
  induction l with
  | nil => intro acc; simp
  | cons t l ih =>
    intro acc
    show (List.foldl mergeStep (mergeStep acc t) l).words = _
    rw [ih (mergeStep acc t)]
    show acc.words ++ t.words ++ (l.map (·.words)).flatten = _
    simp [List.append_assoc]

theorem foldl_sepStep_of_ne (xs : List String) :
    ∀ acc, acc ≠ "" → List.foldl sepStep acc xs = acc ++ sepTail xs := by
  induction xs with
  | nil => intro acc _; exact (String.append_empty acc).symm
  | cons x xs ih =>
    intro acc hacc
    have hst : sepStep acc x = acc ++ " " ++ x := by
      simp [sepStep, hacc]
    have hne : sepStep acc x ≠ "" := by
      rw [hst]
      exact append_ne_empty_left _ _ (append_ne_empty_left _ _ hacc)
    show List.foldl sepStep (sepStep acc x) xs = _
    rw [ih (sepStep acc x) hne, hst]
    show acc ++ " " ++ x ++ sepTail xs = acc ++ ((" " ++ x) ++ sepTail xs)
    simp [String.append_assoc]

theorem sepStep_empty (x : String) : sepStep "" x = x := by
  unfold sepStep
  rw [if_pos rfl]
  rfl

theorem foldl_mergeStep_text_eq (l : List TranscriptionResult) :
    ∀ acc, (List.foldl mergeStep acc l).text =
      List.foldl sepStep acc.text (l.map (·.text)) := by
  induction l with
  | nil => intro acc; rfl
  | cons t l ih =>
    intro acc
    show (List.foldl mergeStep (mergeStep acc t) l).text = _
    rw [ih (mergeStep acc t)]
    rfl

/-- C4 counterexample: with the first chunk text empty (chunk texts empty and
b), the merged text is b: the merge loop suppresses the separator while the
accumulated text is still empty, so the result is not the separator-join
blank-b the claim demands at this input. -/
theorem mergeTranscriptions_text_counterexample :
    (mergeTranscriptions [emptyChunk, bChunk]).map (·.text) ≠
      some (intercalateSpec " " [emptyChunk.text, bChunk.text]) := by
  decide

/-- C4 amended: merging a non-empty chunk-result list succeeds; the merged
words are the chunk word lists concatenated in chunk order (list append keeps
intra-chunk order); the merged text is the chunk texts joined with a blank
separator except that the separator is suppressed while the accumulated text
so far is empty (the `sepJoin` fold); in particular, whenever the first chunk
text is non-empty the merged text is exactly the blank-joined chunk texts. -/
theorem mergeTranscriptions_merged (t0 : TranscriptionResult)
    (rest : List TranscriptionResult) :
    ∃ m, mergeTranscriptions (t0 :: rest) = some m ∧
      m.words = ((t0 :: rest).map (·.words)).flatten ∧
      m.text = sepJoin ((t0 :: rest).map (·.text)) ∧
      (t0.text ≠ "" →
        m.text = intercalateSpec " " ((t0 :: rest).map (·.text))) := by
  have hjoin : ∀ ts : List TranscriptionResult,
      sepJoin ((t0 :: ts).map (·.text)) =
        List.foldl sepStep t0.text (ts.map (·.text)) := by
    intro ts
    show List.foldl sepStep (sepStep "" t0.text) (ts.map (·.text)) = _
    rw [sepStep_empty]
  cases rest with
  | nil =>
    refine ⟨t0, rfl, by simp, ?_, fun _ => rfl⟩
    rw [hjoin []]
    rfl
  | cons t1 rest =>
    have htext : (List.foldl mergeStep
        { text := "", language := t0.language,
          language_probability := t0.language_probability,
          words := ([] : List TranscriptionWord) }
        (t0 :: t1 :: rest)).text =
        sepJoin ((t0 :: t1 :: rest).map (·.text)) := by
      rw [foldl_mergeStep_text_eq]
      rfl
    refine ⟨_, rfl, ?_, htext, ?_⟩
    · rw [foldl_mergeStep_words]
      rfl
    · intro h0
      rw [htext, hjoin (t1 :: rest),
        foldl_sepStep_of_ne ((t1 :: rest).map (·.text)) t0.text h0]
      simp only [List.map_cons]
      rw [intercalateSpec_eq_sepTail]

/-- C4 amended witness: two concrete chunks with non-empty texts merge to the
blank-joined text, with the word lists concatenated in chunk order. -/
theorem mergeTranscriptions_merged_witness :
    (mergeTranscriptions [chunkA, chunkB]).map (·.text) = some "Hello. Bye." ∧
    (mergeTranscriptions [chunkA, chunkB]).map (·.words) =
      some [helloWord, worldWord] := by
  obtain ⟨m, hm, hw, hsj, ht⟩ := mergeTranscriptions_merged chunkA [chunkB]
  rw [hm]
  constructor
  · show some m.text = some "Hello. Bye."
    rw [ht (by decide)]
    decide
  · show some m.words = some [helloWord, worldWord]
    rw [hw]
    decide

/-- C3 counterexample: with diarization disabled the claim demands that no
speaker count be imposed (letting the recognizer auto-detect), yet the request
built by `transcribeSegment` still carries a speaker count (namely 1). -/
theorem buildConvertRequest_counterexample :
    (buildConvertRequest { diarize := some false }).num_speakers ≠ none := by
  decide

/-- C3 amended: the recognition request always carries an imposed speaker
count: the configured count (default 2, even when that configured count is 0)
when diarization is enabled, and 1 when diarization is disabled; auto-detection
is never left to the recognizer. -/
theorem buildConvertRequest_num_speakers (options : TranscriptionOptions) :
    (buildConvertRequest options).num_speakers =
      some (if options.diarize.getD true then options.numSpeakers.getD 2 else 1) :=
  rfl

/-- C10: the normalized confidence equals the raw confidence exactly when the
field is present and non-zero; an absent confidence and a reported confidence
of exactly 0 are both rewritten to full confidence 1, because the default is
applied by falsiness rather than by absence. -/
theorem normalizeWord_confidence (word : RawWord) :
    ((word.confidence = none ∨ word.confidence = some 0) →
      (normalizeWord word).confidence = 1) ∧
    (∀ c : ℚ, word.confidence = some c → c ≠ 0 →
      (normalizeWord word).confidence = c) := by
  constructor
  · intro h
    rcases h with h | h <;> simp [normalizeWord, jsOrNum, h]
  · intro c hc hne
    simp [normalizeWord, jsOrNum, hc, hne]

/-- C10 witness: a word whose reported confidence is exactly 0 is rewritten
to full confidence 1. -/
theorem normalizeWord_confidence_witness :
    (normalizeWord { confidence := some 0 }).confidence = 1 :=
  (normalizeWord_confidence { confidence := some 0 }).1 (Or.inr rfl)

theorem splitAudio_get (D L : ℚ) (ts : String) (i : ℕ)
    (h : i < (splitAudio D L ts).length) :
    (splitAudio D L ts).get ⟨i, h⟩ =
      { index := i, startTimeSec := ((i : ℚ) * L) / 1000,
        requestedDurationSec := L / 1000,
        path := "temp_audio_segments/segment_" ++ padIndex i ++ "_" ++
          ts ++ ".mp3" } := by
  simp [splitAudio]

/-- C2: for probed total duration D and chunk length L positive, `splitAudio`
produces exactly the ceiling of D / L chunks; chunk i starts at offset i * L
milliseconds; and the last chunk is written for
min(L, D - (numChunks - 1) * L) milliseconds, which equals the remainder
D - (numChunks - 1) * L. -/
theorem splitAudio_spec (D L : ℚ) (ts : String) (hD : 0 ≤ D) (hL : 0 < L) :
    (splitAudio D L ts).length = (⌈D / L⌉).toNat ∧
    (∀ (i : ℕ) (h : i < (splitAudio D L ts).length),
      ((splitAudio D L ts).get ⟨i, h⟩).startTimeSec * 1000 = (i : ℚ) * L) ∧
    (∀ h : splitAudio D L ts ≠ [],
      effectiveDurationMs D ((splitAudio D L ts).getLast h) =
        min L (D - (((splitAudio D L ts).length : ℚ) - 1) * L) ∧
      min L (D - (((splitAudio D L ts).length : ℚ) - 1) * L) =
        D - (((splitAudio D L ts).length : ℚ) - 1) * L) := by
  have h1000 : (1000 : ℚ) ≠ 0 := by norm_num
  have hlen : (splitAudio D L ts).length = (⌈D / L⌉).toNat := by
    simp [splitAudio]
  refine ⟨hlen, ?_, ?_⟩
  · intro i h
    rw [splitAudio_get]
    exact div_mul_cancel₀ _ h1000
  · intro hne
    have hlpos : 0 < (splitAudio D L ts).length := List.length_pos.mpr hne
    have hsub : (((splitAudio D L ts).length - 1 : ℕ) : ℚ) =
        ((splitAudio D L ts).length : ℚ) - 1 := by
      rw [Nat.cast_sub hlpos, Nat.cast_one]
    have heff : effectiveDurationMs D ((splitAudio D L ts).getLast hne) =
        min L (D - (((splitAudio D L ts).length : ℚ) - 1) * L) := by
      rw [List.getLast_eq_get, splitAudio_get]
      show min (L / 1000 * 1000)
        (D - (((splitAudio D L ts).length - 1 : ℕ) : ℚ) * L / 1000 * 1000) = _
      rw [div_mul_cancel₀ _ h1000, div_mul_cancel₀ _ h1000, hsub]
    refine ⟨heff, min_eq_right ?_⟩
    have hcast : ((splitAudio D L ts).length : ℚ) = ((⌈D / L⌉ : ℤ) : ℚ) := by
      rw [hlen]
      have hnn := Int.toNat_of_nonneg (Int.ceil_nonneg (div_nonneg hD hL.le))
      exact_mod_cast congrArg (fun z : ℤ => (z : ℚ)) hnn
    have hDle : D ≤ ((splitAudio D L ts).length : ℚ) * L := by
      rw [hcast, ← div_le_iff₀ hL]
      exact Int.le_ceil _
    linarith

/-- C2 witness: a 50 minute file (3000000 ms) with 45 minute chunks
(2700000 ms) yields exactly 2 chunks. -/
theorem splitAudio_spec_witness :
    (splitAudio 3000000 2700000 "t").length = 2 := by
  have h := (splitAudio_spec 3000000 2700000 "t" (by norm_num) (by norm_num)).1
  rw [h]
  have hc : ⌈(3000000 : ℚ) / 2700000⌉ = 2 := by
    rw [Int.ceil_eq_iff]
    constructor <;> norm_num
  rw [hc]
  rfl

/-- C9: when the ELEVENLABS_API_KEY credential is absent,
`transcribeWithScribe` returns exit code 1 without any output file event:
neither the header write nor any body append happens. -/
theorem transcribeWithScribe_missing_api_key (env : ScribeEnv)
    (audioFilePath : String) (options : TranscriptionOptions)
    (h : env.apiKey = none) :
    transcribeWithScribe env audioFilePath options = (1, []) := by
  simp [transcribeWithScribe, h]

/-- C9 witness: a concrete run with the credential absent exits 1 with no
file events. -/
theorem transcribeWithScribe_missing_api_key_witness :
    transcribeWithScribe envMissingKey "audio.mp3" {} = (1, []) :=
  transcribeWithScribe_missing_api_key envMissingKey "audio.mp3" {} rfl

/-- C8 counterexample: in a completed two-segment run the pipeline does
delete the temporary segment files; the run events contain an unlink of the
first segment path, contradicting the claim that the files are retained. -/
theorem transcribeWithScribe_cleanup_counterexample :
    FsEvent.unlink "temp_audio_segments/segment_000.mp3" ∈
      (transcribeWithScribe envTwoSegments "audio.mp3" {}).2 := by
  decide

/-- C8 amended: in a multi-chunk run that completes recognition and merging,
the pipeline deletes every temporary segment file: an unlink event for each
segment path is among the run events (after the output content events),
rather than the files being retained. -/
theorem transcribeWithScribe_unlinks_segments (env : ScribeEnv)
    (audioFilePath : String) (options : TranscriptionOptions)
    (k : String) (paths : List String)
    (hk : env.apiKey = some k) (hk2 : k ≠ "")
    (hs : env.splitResult = Except.ok paths) (hlen : 2 ≤ paths.length) :
    ∀ q ∈ paths,
      FsEvent.unlink q ∈ (transcribeWithScribe env audioFilePath options).2 := by
  intro q hq
  cases paths with
  | nil => simp at hlen
  | cons p1 t =>
    cases t with
    | nil => simp at hlen
    | cons p2 rest =>
      simp only [transcribeWithScribe, hk, hs]
      rw [if_neg hk2]
      rw [if_neg (by simp)]
      simp only [List.map_cons, mergeTranscriptions]
      apply List.mem_cons_of_mem
      apply List.mem_append_right
      rw [← List.map_cons, ← List.map_cons]
      exact List.mem_map_of_mem _ hq

/-- C8 amended witness: the second segment path of the concrete two-segment
run is unlinked. -/
theorem transcribeWithScribe_unlinks_segments_witness :
    FsEvent.unlink "temp_audio_segments/segment_001.mp3" ∈
      (transcribeWithScribe envTwoSegments "audio.mp3" {}).2 :=
  transcribeWithScribe_unlinks_segments envTwoSegments "audio.mp3" {} "key"
    ["temp_audio_segments/segment_000.mp3",
      "temp_audio_segments/segment_001.mp3"]
    rfl (by decide) rfl (by decide)
    "temp_audio_segments/segment_001.mp3" (by decide)

end Scribe
